import Mathlib

/-!
Verification of the persistence, derived-value, query and backup layer of the
Gait Documentation application (`src/GaitDocumentationApp.py`).

The Python code is shallowly embedded: `None`-able floats become `Option ℚ`,
SQLite tables become lists of records, SQLite errors become an explicit error
type, and the file system / environment becomes explicit state.  Python float
arithmetic on the quantities appearing here (day counts divided by 365.25 and
30.44, metric BMI inputs) is modelled with exact rationals; the constants
365.25 = 1461/4 is exactly representable in binary floating point and the
decision thresholds of the 30.44 division are bounded away from integers by
at least 1/3044, far beyond double rounding error, so the rational model and
the float code agree on every integer day count of realistic magnitude.
-/

namespace GaitDoc

/-! ## Derived Value Engine: BMI

Each of the four store mutators (`add_exam`, `add_intervention`,
`update_exam`, `update_intervention`) contains its own copy of the BMI
computation:

    bmi = None
    if height_cm and weight_kg and height_cm > 0:
        try:
            bmi = weight_kg / ((height_cm / 100.0) ** 2)
        except Exception:
            bmi = None

Python truthiness on a `float | None` value means "not `None` and not zero",
so the guard is: height present and nonzero, weight present and nonzero, and
height positive.  The guarded division can raise no exception for a positive
rational height, so the `try` adds nothing in the rational model. -/

/-- BMI computation transcribed from `Database.add_exam` (lines 292-298). -/
def add_exam_bmi (height_cm weight_kg : Option ℚ) : Option ℚ :=
  match height_cm, weight_kg with
  | some h, some w =>
      if h ≠ 0 ∧ w ≠ 0 ∧ h > 0 then some (w / ((h / 100) ^ 2)) else none
  | _, _ => none

/-- BMI computation transcribed from `Database.add_intervention` (lines 363-369). -/
def add_intervention_bmi (height_cm weight_kg : Option ℚ) : Option ℚ :=
  match height_cm, weight_kg with
  | some h, some w =>
      if h ≠ 0 ∧ w ≠ 0 ∧ h > 0 then some (w / ((h / 100) ^ 2)) else none
  | _, _ => none

/-- BMI computation transcribed from `Database.update_exam` (lines 483-488). -/
def update_exam_bmi (height_cm weight_kg : Option ℚ) : Option ℚ :=
  match height_cm, weight_kg with
  | some h, some w =>
      if h ≠ 0 ∧ w ≠ 0 ∧ h > 0 then some (w / ((h / 100) ^ 2)) else none
  | _, _ => none

/-- BMI computation transcribed from `Database.update_intervention` (lines 517-522). -/
def update_intervention_bmi (height_cm weight_kg : Option ℚ) : Option ℚ :=
  match height_cm, weight_kg with
  | some h, some w =>
      if h ≠ 0 ∧ w ≠ 0 ∧ h > 0 then some (w / ((h / 100) ^ 2)) else none
  | _, _ => none

/-! ## Dates and the age-at-event computation

`PatientDetailWindow._calculate_age_at_event` parses both dates with
`datetime.strptime(s, "%Y-%m-%d")` and subtracts them; `(ed - bd).days` is
the exact difference of proleptic-Gregorian day numbers.  A missing (empty)
date string fails the leading truthiness test, an unparseable one raises
inside the `try`; both paths return the empty string.  We embed a parsed
date as a year/month/day record, with `Date.valid` capturing exactly the
strings `strptime` accepts (`datetime` years run 1..9999), and embed the day
numbering with the standard civil-from-days formula, which agrees with
`datetime.date.toordinal` up to a constant offset that cancels in the
subtraction. -/

structure Date where
  year : Nat
  month : Nat
  day : Nat
deriving DecidableEq

/-- Gregorian leap-year rule, as used by `datetime`. -/
def isLeap (y : Nat) : Bool :=
  (y % 4 == 0 && y % 100 != 0) || y % 400 == 0

/-- Length of a month in the proleptic Gregorian calendar. -/
def daysInMonth (y m : Nat) : Nat :=
  if m = 2 then (if isLeap y then 29 else 28)
  else if m = 4 ∨ m = 6 ∨ m = 9 ∨ m = 11 then 30
  else 31

/-- The year/month/day triples `datetime.strptime(s, "%Y-%m-%d")` accepts. -/
def Date.valid (dt : Date) : Bool :=
  1 ≤ dt.year && dt.year ≤ 9999 &&
  1 ≤ dt.month && dt.month ≤ 12 &&
  1 ≤ dt.day && dt.day ≤ daysInMonth dt.year dt.month

/-- Day number of a civil date (days since 1970-01-01, proleptic Gregorian);
differences of this function model `(ed - bd).days` on `datetime` values. -/
def rataDie (dt : Date) : ℤ :=
  let y : ℤ := (dt.year : ℤ) - (if dt.month ≤ 2 then 1 else 0)
  let era : ℤ := Int.fdiv y 400
  let yoe : ℤ := y - era * 400
  let mp : Nat := if 2 < dt.month then dt.month - 3 else dt.month + 9
  let doy : ℤ := ((153 * mp + 2) / 5 + dt.day - 1 : Nat)
  let doe : ℤ := yoe * 365 + yoe / 4 - yoe / 100 + doy
  era * 146097 + doe - 719468

/-- Age string computation transcribed from
`PatientDetailWindow._calculate_age_at_event` (lines 1158-1170); `none`
stands for a missing/empty date string and an invalid record for an
unparseable one.  `int(x // y)` on a float floor-quotient is `⌊x / y⌋`, and
Python float `%` with a positive divisor is `x - y * ⌊x / y⌋`. -/
def calculate_age_at_event (birth event : Option Date) : String :=
  match birth, event with
  | some bd, some ed =>
      if bd.valid && ed.valid then
        let age_days : ℤ := rataDie ed - rataDie bd
        let age_years : ℤ := ⌊(age_days : ℚ) / 365.25⌋
        let age_months : ℤ :=
          ⌊((age_days : ℚ) - 365.25 * ⌊(age_days : ℚ) / 365.25⌋) / 30.44⌋
        toString age_years ++ "y, " ++ toString age_months ++ "m"
      else ""
  | _, _ => ""

theorem rataDie_epoch : rataDie ⟨1970, 1, 1⟩ = 0 := by decide

theorem rataDie_example : rataDie ⟨2024, 1, 10⟩ - rataDie ⟨1990, 5, 1⟩ = 12307 := by decide

/-! ## Strings: SQLite comparison and LIKE

`search_patients` issues `{field} LIKE ?` with parameter `%{filter_text}%`
and `birth_date >= ? / <= ?`.  SQLite's default `LIKE` is case-insensitive
for the ASCII range and treats `%` and `_` in the pattern as wildcards;
TEXT comparison under the default BINARY collation is bytewise, which on
UTF-8 agrees with code-point lexicographic order. -/

/-- ASCII lower-casing, as SQLite's default `LIKE` applies to both sides. -/
def lowerChar (c : Char) : Char :=
  if 'A' ≤ c ∧ c ≤ 'Z' then Char.ofNat (c.toNat + 32) else c

/-- SQLite `LIKE` pattern matching on exploded strings:
ASCII-case-insensitive, `%` matches any stretch of the text (tried against
every suffix), `_` matches exactly one character. -/
def likeChars : List Char → List Char → Bool
  | [], t => t.isEmpty
  | q :: ps, t =>
      if q = '%' then t.tails.any (fun s => likeChars ps s)
      else
        match t with
        | [] => false
        | c :: ts =>
            (if q = '_' then true else lowerChar q == lowerChar c) && likeChars ps ts

/-- `value LIKE pattern` on Lean strings. -/
def sqlLike (pattern s : String) : Bool :=
  likeChars pattern.data s.data

def charLe (a b : Char) : Bool := Nat.ble a.toNat b.toNat

/-- Code-point lexicographic order on exploded strings; this is SQLite's
BINARY collation order on the UTF-8 encodings. -/
def lexLe : List Char → List Char → Bool
  | [], _ => true
  | _ :: _, [] => false
  | a :: as, b :: bs => if a = b then lexLe as bs else charLe a b

/-- `a <= b` as SQLite compares two TEXT values. -/
def strLe (a b : String) : Bool := lexLe a.data b.data

/-- Case-insensitive "starts with" on exploded strings (claim side). -/
def startsWithCI : List Char → List Char → Bool
  | [], _ => true
  | _ :: _, [] => false
  | a :: as, b :: bs => (lowerChar a == lowerChar b) && startsWithCI as bs

/-- Case-insensitive substring containment on exploded strings (claim side). -/
def containsCI (needle : List Char) : List Char → Bool
  | [] => needle.isEmpty
  | c :: hs => startsWithCI needle (c :: hs) || containsCI needle hs

/-- Case-sensitive "starts with" on exploded strings (claim side). -/
def startsWithCS : List Char → List Char → Bool
  | [], _ => true
  | _ :: _, [] => false
  | a :: as, b :: bs => (a == b) && startsWithCS as bs

/-- Case-sensitive substring containment on exploded strings; this is the
plain reading of "contains the filter text as a substring". -/
def containsCS (needle : List Char) : List Char → Bool
  | [] => needle.isEmpty
  | c :: hs => startsWithCS needle (c :: hs) || containsCS needle hs

/-! ## The record store

The five SQLite tables (schema in `Database.create_tables`) become lists of
records; `AUTOINCREMENT` surrogate keys become explicit counters; the
instance attribute `_birth_range` installed by `set_birth_range` becomes an
optional pair.  `PRAGMA foreign_keys = ON` is set in `Database.__init__`,
so the `ON DELETE CASCADE` clauses of the schema are live: deleting a
patient removes its exams and interventions, and removing those removes
their attachments. -/

structure Patient where
  patient_id : Nat
  patient_code : Option String
  first_name : String
  last_name : String
  birth_date : String
  diagnosis : Option String
  gender : Option String
  height : Option ℚ
  assistive_device : Option String
  address : Option String
  post_number : Option String
  city : Option String
  country : Option String
  phone : Option String
  mobile : Option String
  email : Option String
deriving DecidableEq

structure Exam where
  exam_id : Nat
  patient_id : Nat
  exam_type : String
  exam_date : String
  notes : Option String
  height_cm : Option ℚ
  weight_kg : Option ℚ
  assistive_device : Option String
  bmi : Option ℚ
  examiner : Option String
deriving DecidableEq

structure Intervention where
  intervention_id : Nat
  patient_id : Nat
  intervention_type : String
  intervention_date : String
  notes : Option String
  height_cm : Option ℚ
  weight_kg : Option ℚ
  assistive_device : Option String
  bmi : Option ℚ
  operator : Option String
deriving DecidableEq

structure ExamAttachment where
  file_id : Nat
  exam_id : Nat
  file_path : String
  description : String
deriving DecidableEq

structure InterventionAttachment where
  file_id : Nat
  intervention_id : Nat
  file_path : String
  description : String
deriving DecidableEq

structure DB where
  patients : List Patient
  exams : List Exam
  exam_attachments : List ExamAttachment
  interventions : List Intervention
  intervention_attachments : List InterventionAttachment
  next_patient_id : Nat
  next_exam_id : Nat
  next_intervention_id : Nat
  next_exam_file_id : Nat
  next_intervention_file_id : Nat
  birth_range : Option (Option String × Option String)
deriving DecidableEq

/-- SQLite error kinds the application distinguishes: the UI catches
`sqlite3.IntegrityError` (uniqueness violations) separately from every
other `Exception` (`AddPatientWindow.add_patient`, lines 697-700). -/
inductive DBError where
  | integrityError
  | operationalError (msg : String)
deriving DecidableEq

/-- `Database.add_patient` (line 195): a plain INSERT.  The `patient_code`
column is declared `TEXT UNIQUE`, so SQLite raises `IntegrityError` when the
inserted code is non-NULL and already present (NULLs are exempt from
UNIQUE); on success the new `AUTOINCREMENT` rowid is returned. -/
def add_patient (db : DB) (first_name last_name birth_date : String)
    (diagnosis gender : Option String) (height : Option ℚ)
    (assistive_device patient_code address post_number city country phone
     mobile email : Option String) : Except DBError (DB × Nat) :=
  if patient_code.isSome &&
      db.patients.any (fun p => decide (p.patient_code = patient_code)) then
    .error .integrityError
  else
    .ok ({ db with
             patients := db.patients ++
               [{ patient_id := db.next_patient_id
                  patient_code := patient_code
                  first_name := first_name
                  last_name := last_name
                  birth_date := birth_date
                  diagnosis := diagnosis
                  gender := gender
                  height := height
                  assistive_device := assistive_device
                  address := address
                  post_number := post_number
                  city := city
                  country := country
                  phone := phone
                  mobile := mobile
                  email := email }]
             next_patient_id := db.next_patient_id + 1 },
         db.next_patient_id)

/-- `Database.delete_patient` (lines 427-431): `DELETE FROM patients WHERE
patient_id = ?` with foreign keys on, so the two `ON DELETE CASCADE` chains
fire: exams and interventions of the patient go, and attachments of those
events go with them. -/
def delete_patient (db : DB) (pid : Nat) : DB :=
  let deadExams := (db.exams.filter (fun e => e.patient_id == pid)).map (fun e => e.exam_id)
  let deadIntervs :=
    (db.interventions.filter (fun i => i.patient_id == pid)).map (fun i => i.intervention_id)
  { db with
    patients := db.patients.filter (fun p => p.patient_id != pid)
    exams := db.exams.filter (fun e => e.patient_id != pid)
    exam_attachments :=
      db.exam_attachments.filter (fun a => !(deadExams.contains a.exam_id))
    interventions := db.interventions.filter (fun i => i.patient_id != pid)
    intervention_attachments :=
      db.intervention_attachments.filter (fun a => !(deadIntervs.contains a.intervention_id)) }

/-- `Database.add_exam` (lines 277-316): computes the BMI, then inserts.
With foreign keys on, SQLite rejects an exam whose `patient_id` matches no
patient row. -/
def add_exam (db : DB) (patient_id : Nat) (exam_type exam_date : String)
    (notes : Option String) (height_cm weight_kg : Option ℚ)
    (assistive_device examiner : Option String) : Except DBError (DB × Nat) :=
  let bmi := add_exam_bmi height_cm weight_kg
  if db.patients.any (fun p => p.patient_id == patient_id) then
    .ok ({ db with
             exams := db.exams ++
               [{ exam_id := db.next_exam_id
                  patient_id := patient_id
                  exam_type := exam_type
                  exam_date := exam_date
                  notes := notes
                  height_cm := height_cm
                  weight_kg := weight_kg
                  assistive_device := assistive_device
                  bmi := bmi
                  examiner := examiner }]
             next_exam_id := db.next_exam_id + 1 },
         db.next_exam_id)
  else
    .error .integrityError

/-- `Database.update_exam` (lines 471-504): recomputes the BMI and
overwrites all mutable columns of the row with the given key (an UPDATE
matching no row is a no-op). -/
def update_exam (db : DB) (exam_id : Nat) (exam_type exam_date : String)
    (notes : Option String) (height_cm weight_kg : Option ℚ)
    (assistive_device examiner : Option String) : DB :=
  let bmi := update_exam_bmi height_cm weight_kg
  { db with
    exams := db.exams.map (fun e =>
      if e.exam_id == exam_id then
        { e with
          exam_type := exam_type
          exam_date := exam_date
          notes := notes
          height_cm := height_cm
          weight_kg := weight_kg
          assistive_device := assistive_device
          bmi := bmi
          examiner := examiner }
      else e) }

/-- `Database.set_birth_range` (line 229). -/
def set_birth_range (db : DB) (start stop : Option String) : DB :=
  { db with birth_range := some (start, stop) }

/-- The field names `Database.search_patients` accepts (line 210). -/
def validFields : List String :=
  ["last_name", "diagnosis", "patient_code", "post_number"]

/-- The column a (whitelisted) field selector reads. -/
def fieldValue (p : Patient) (field : String) : Option String :=
  if field = "diagnosis" then p.diagnosis
  else if field = "patient_code" then p.patient_code
  else if field = "post_number" then p.post_number
  else some p.last_name

/-- Insert a patient into a list sorted by `last_name`. -/
def insertByLastName (p : Patient) : List Patient → List Patient
  | [] => [p]
  | q :: qs =>
      if strLe p.last_name q.last_name then p :: q :: qs
      else q :: insertByLastName p qs

/-- `ORDER BY last_name`: one of the orders SQLite may return (ascending by
`last_name`; the relative order of ties is unspecified in SQL). -/
def sortByLastName : List Patient → List Patient
  | [] => []
  | p :: ps => insertByLastName p (sortByLastName ps)

/-- `Database.search_patients` (lines 196-228).  A non-empty filter text is
matched with `{field} LIKE '%text%'` against the chosen column, after
falling back to `last_name` for a field outside the whitelist; a `NULL`
column never satisfies `LIKE`.  The stored `_birth_range`, when present,
adds `birth_date >= start` and `birth_date <= end` for each bound that is
truthy (non-`None` and non-empty).  Results come back `ORDER BY last_name`. -/
def search_patients (db : DB) (filter_text field : String) : List Patient :=
  let pred : Patient → Bool := fun p =>
    (if filter_text = "" then true
     else
       let f := if validFields.contains field then field else "last_name"
       match fieldValue p f with
       | some s => sqlLike ("%" ++ filter_text ++ "%") s
       | none => false)
    &&
    (match db.birth_range with
     | none => true
     | some (rs, re_) =>
         (match rs with
          | some s => if s = "" then true else strLe s p.birth_date
          | none => true) &&
         (match re_ with
          | some e => if e = "" then true else strLe p.birth_date e
          | none => true))
  sortByLastName (db.patients.filter pred)

/-! ## Backup scheduler

`Database.backup_database` (lines 230-252) builds the destination name from
the store's base name and `datetime.now().strftime("%Y%m%d")`, then copies
the open database into that file with SQLite's backup API; the whole body
sits in a `try` whose handler prints `Backup Error: ...` and returns.
`schedule_daily_backup` (lines 254-276) loops forever: sleep until the next
midnight, call `backup_database`, repeat. -/

/-- Zero-pad to two digits, as `%m` / `%d` format. -/
def pad2 (n : Nat) : String :=
  if n < 10 then "0" ++ toString n else toString n

/-- Zero-pad to four digits, as `%Y` formats the four-digit years
`datetime.now()` produces. -/
def pad4 (n : Nat) : String :=
  if n < 10 then "000" ++ toString n
  else if n < 100 then "00" ++ toString n
  else if n < 1000 then "0" ++ toString n
  else toString n

/-- `datetime.now().strftime("%Y%m%d")`. -/
def strftime_Ymd (y m d : Nat) : String := pad4 y ++ pad2 m ++ pad2 d

/-- `os.path.basename` (POSIX): the part after the last slash. -/
def basenameChars (l : List Char) : List Char :=
  match l with
  | [] => []
  | c :: cs => if c = '/' then basenameChars cs
               else if cs.contains '/' then basenameChars cs
               else c :: basenameChars cs

def basename (p : String) : String := String.mk (basenameChars p.data)

/-- Index (from the left) of the last `'.'` in a name, if any. -/
def lastDotIdx (l : List Char) : Option Nat :=
  match l with
  | [] => none
  | c :: cs =>
      match lastDotIdx cs with
      | some i => some (i + 1)
      | none => if c = '.' then some 0 else none

/-- Number of leading dots of a name. -/
def leadingDots : List Char → Nat
  | [] => 0
  | c :: cs => if c = '.' then leadingDots cs + 1 else 0

/-- `os.path.splitext(name)[0]` on a basename: cut at the last dot unless
every character before it is itself a dot (`.bashrc` keeps its name). -/
def splitextStem (name : String) : String :=
  match lastDotIdx name.data with
  | none => name
  | some i =>
      if i < leadingDots name.data then name
      else String.mk (name.data.take i)

/-- `os.path.splitext(name)[1]` on a basename (the `pathlib` `suffix`). -/
def splitextSuffix (name : String) : String :=
  match lastDotIdx name.data with
  | none => ""
  | some i =>
      if i < leadingDots name.data then ""
      else String.mk (name.data.drop i)

/-- The backup file name of line 245:
`f"{base}_backup_{date_str}.db"` with `base` the extension-less basename of
the database path (line 243). -/
def backup_name (db_path : String) (y m d : Nat) : String :=
  splitextStem (basename db_path) ++ "_backup_" ++ strftime_Ymd y m d ++ ".db"

/-- Writing a file: after the write, the name holds the new content and
every other entry is untouched (an existing file of that name is
overwritten). -/
def fsWrite (dir : List (String × Nat)) (name : String) (content : Nat) :
    List (String × Nat) :=
  (name, content) :: dir.filter (fun f => f.1 != name)

/-- The environment a backup runs in: the backup directory's files, the
current store content, a log, and fault switches for the three effectful
steps of the `try` block (`mkdir`, `sqlite3.connect`, `conn.backup`). -/
structure BackupWorld where
  mkdirFails : Bool
  connectFails : Bool
  copyFails : Bool
  backupFiles : List (String × Nat)
  dbContent : Nat
  log : List String
deriving DecidableEq

/-- The body of the `try` in `Database.backup_database`: any step may raise;
an error carries the world at the point the exception was raised. -/
def backup_attempt (w : BackupWorld) (db_path : String) (y m d : Nat) :
    Except (String × BackupWorld) BackupWorld :=
  if w.mkdirFails then .error ("mkdir failed", w)
  else if w.connectFails then .error ("unable to open database file", w)
  else if w.copyFails then .error ("backup failed", w)
  else .ok { w with
             backupFiles := fsWrite w.backupFiles (backup_name db_path y m d) w.dbContent }

/-- `Database.backup_database`: the `try` body with its catch-all handler,
which only appends `Backup Error: ...` to the log (line 252). -/
def backup_database (w : BackupWorld) (db_path : String) (y m d : Nat) :
    BackupWorld :=
  match backup_attempt w db_path y m d with
  | .ok w2 => w2
  | .error (e, w2) => { w2 with log := w2.log ++ ["Backup Error: " ++ e] }

/-- `n` passes of the `backup_loop` of `schedule_daily_backup` (sleeping
abstracted away): each pass performs one guarded backup and continues. -/
def backup_loop_run (db_path : String) (y m d : Nat) : Nat → BackupWorld → BackupWorld
  | 0, w => w
  | n + 1, w => backup_loop_run db_path y m d n (backup_database w db_path y m d)

/-! ## Attachments

`AttachmentWindowBase.add_attachment` (lines 1810-1897): build the
destination directory `attachments/{exams|interventions}/{patient-code-or-
id}/{event-date}` from the event row and its patient, pick a destination
name that does not collide with an existing file, `shutil.copy2` the source
there, and only then insert the database row.  The whole sequence is inside
one `try`: if the copy raises (e.g. the source file is gone), the handler
shows the error and the insert is never reached.  The file system is
modelled as the list of existing file paths. -/

/-- The collision-avoiding destination of lines 1879-1887: `name`, or else
`stem_1.ext`, `stem_2.ext`, ... for the first free index.  The candidate
list has more names than there are files, so the fallback arm after
`find?` is unreachable. -/
def freshDest (files : List String) (dir fname : String) : String :=
  let dest0 := dir ++ "/" ++ fname
  if !(files.contains dest0) then dest0
  else
    let stem := splitextStem fname
    let ext := splitextSuffix fname
    match (List.range (files.length + 1)).find?
        (fun k => !(files.contains (dir ++ "/" ++ stem ++ "_" ++ toString (k + 1) ++ ext))) with
    | some k => dir ++ "/" ++ stem ++ "_" ++ toString (k + 1) ++ ext
    | none => dir ++ "/" ++ stem ++ "_" ++ toString (files.length + 1) ++ ext

/-- `AttachmentWindowBase.add_attachment`, for both the exam and the
intervention variant (`isExam` selects the tables, as `self.event_type`
does).  An error carries the unchanged database and file list. -/
def add_attachment (db : DB) (files : List String) (isExam : Bool)
    (event_id : Nat) (src_path : String) :
    Except (String × DB × List String) (DB × List String × Nat) :=
  let desc := basename src_path
  let pidDate : Option Nat × Option String :=
    if isExam then
      match db.exams.find? (fun e => e.exam_id == event_id) with
      | some e => (some e.patient_id, some e.exam_date)
      | none => (none, none)
    else
      match db.interventions.find? (fun i => i.intervention_id == event_id) with
      | some i => (some i.patient_id, some i.intervention_date)
      | none => (none, none)
  let sub := if isExam then "exams" else "interventions"
  let patient_code :=
    match pidDate.1 with
    | some pid =>
        match db.patients.find? (fun p => p.patient_id == pid) with
        | some p =>
            match p.patient_code with
            | some c => if c = "" then toString pid else c
            | none => toString pid
        | none => toString pid
    | none => "unknown"
  let date_part :=
    match pidDate.2 with
    | some d => if d = "" then "unknown_date" else d
    | none => "unknown_date"
  let dir := "attachments/" ++ sub ++ "/" ++ patient_code ++ "/" ++ date_part
  let dest := freshDest files dir (basename src_path)
  if files.contains src_path then
    if isExam then
      .ok ({ db with
               exam_attachments := db.exam_attachments ++
                 [{ file_id := db.next_exam_file_id
                    exam_id := event_id
                    file_path := dest
                    description := desc }]
               next_exam_file_id := db.next_exam_file_id + 1 },
           files ++ [dest], db.next_exam_file_id)
    else
      .ok ({ db with
               intervention_attachments := db.intervention_attachments ++
                 [{ file_id := db.next_intervention_file_id
                    intervention_id := event_id
                    file_path := dest
                    description := desc }]
               next_intervention_file_id := db.next_intervention_file_id + 1 },
           files ++ [dest], db.next_intervention_file_id)
  else
    .error ("Could not attach file", db, files)

/-! ## Example rows and stores used by witnesses and counterexamples -/

/-- The store right after `Database.create_tables` on a fresh file
(`AUTOINCREMENT` keys start at 1, no `_birth_range` attribute yet). -/
def emptyDB : DB :=
  { patients := []
    exams := []
    exam_attachments := []
    interventions := []
    intervention_attachments := []
    next_patient_id := 1
    next_exam_id := 1
    next_intervention_id := 1
    next_exam_file_id := 1
    next_intervention_file_id := 1
    birth_range := none }

def patientP1 : Patient :=
  { patient_id := 1
    patient_code := some "P-001"
    first_name := "Jane"
    last_name := "Doe"
    birth_date := "1990-05-01"
    diagnosis := some "ACL tear"
    gender := none
    height := none
    assistive_device := none
    address := none
    post_number := none
    city := none
    country := none
    phone := none
    mobile := none
    email := none }

def patientP2 : Patient :=
  { patientP1 with
    patient_id := 2
    patient_code := some "P-002"
    first_name := "John"
    last_name := "Smith"
    birth_date := "1985-03-02"
    diagnosis := none }

def exam1 : Exam :=
  { exam_id := 10
    patient_id := 1
    exam_type := "Gait Assessment"
    exam_date := "2024-01-10"
    notes := none
    height_cm := none
    weight_kg := none
    assistive_device := none
    bmi := none
    examiner := none }

def examAtt1 : ExamAttachment :=
  { file_id := 100
    exam_id := 10
    file_path := "attachments/exams/P-001/2024-01-10/report.pdf"
    description := "report.pdf" }

def interv1 : Intervention :=
  { intervention_id := 20
    patient_id := 1
    intervention_type := "Physiotherapy"
    intervention_date := "2024-02-01"
    notes := none
    height_cm := none
    weight_kg := none
    assistive_device := none
    bmi := none
    operator := none }

def intervAtt1 : InterventionAttachment :=
  { file_id := 200
    intervention_id := 20
    file_path := "attachments/interventions/P-001/2024-02-01/video.mp4"
    description := "video.mp4" }

/-- A populated store: patient 1 owns an exam with an attachment and an
intervention with an attachment; patient 2 owns nothing. -/
def cascadeDB : DB :=
  { emptyDB with
    patients := [patientP1, patientP2]
    exams := [exam1]
    exam_attachments := [examAtt1]
    interventions := [interv1]
    intervention_attachments := [intervAtt1]
    next_patient_id := 3
    next_exam_id := 11
    next_intervention_id := 21
    next_exam_file_id := 101
    next_intervention_file_id := 201 }

/-! ## Claims -/

/-- Helper: the per-row BMI guard, rephrased on the payloads. -/
theorem add_exam_bmi_some (hv wv : ℚ) :
    add_exam_bmi (some hv) (some wv) =
      if 0 < hv ∧ wv ≠ 0 then some (wv / ((hv / 100) ^ 2)) else none := by
  simp only [add_exam_bmi]
  by_cases h1 : 0 < hv ∧ wv ≠ 0
  · rw [if_pos ⟨ne_of_gt h1.1, h1.2, h1.1⟩, if_pos h1]
  · rw [if_neg (fun hc => h1 ⟨hc.2.2, hc.2.1⟩), if_neg h1]

/-- C10: the four inline BMI computations of `add_exam`,
`add_intervention`, `update_exam` and `update_intervention` are the same
function of height and weight. -/
theorem bmi_four_sites_agree (h w : Option ℚ) :
    add_exam_bmi h w = add_intervention_bmi h w ∧
    add_exam_bmi h w = update_exam_bmi h w ∧
    add_exam_bmi h w = update_intervention_bmi h w :=
  ⟨rfl, rfl, rfl⟩

/-- C1, counterexample: height 170 and weight 0 are both present and the
height is positive, yet the stored BMI is absent — the Python guard
`if height_cm and weight_kg and height_cm > 0` also rejects a zero weight,
so "present if and only if both present and height > 0" fails. -/
theorem bmi_zero_weight_cex :
    (some (170 : ℚ)).isSome = true ∧ (some (0 : ℚ)).isSome = true ∧
    (0 : ℚ) < 170 ∧ add_exam_bmi (some 170) (some 0) = none := by
  refine ⟨rfl, rfl, by norm_num, ?_⟩
  rw [add_exam_bmi_some, if_neg]
  intro hc
  exact hc.2 rfl

/-- C1, amended: the stored BMI is present iff height and weight are both
present, the height is positive and the weight is nonzero; when present it
is weight / (height/100)², and this is exactly what `add_exam` persists and
what `update_exam` recomputes. -/
theorem bmi_presence (h w : Option ℚ) :
    ((add_exam_bmi h w).isSome = true ↔
      ∃ hv wv, h = some hv ∧ w = some wv ∧ 0 < hv ∧ wv ≠ 0) ∧
    (∀ hv wv, h = some hv → w = some wv → 0 < hv → wv ≠ 0 →
      add_exam_bmi h w = some (wv / ((hv / 100) ^ 2))) ∧
    update_exam_bmi h w = add_exam_bmi h w ∧
    (∀ db pid t dt notes ad ex db2 eid,
      add_exam db pid t dt notes h w ad ex = .ok (db2, eid) →
      db2.exams = db.exams ++
        [{ exam_id := db.next_exam_id
           patient_id := pid
           exam_type := t
           exam_date := dt
           notes := notes
           height_cm := h
           weight_kg := w
           assistive_device := ad
           bmi := add_exam_bmi h w
           examiner := ex }]) := by
  refine ⟨?_, ?_, rfl, ?_⟩
  · match h, w with
    | none, _ => simp [add_exam_bmi]
    | some hv, none => simp [add_exam_bmi]
    | some hv, some wv =>
        rw [add_exam_bmi_some]
        by_cases hc : 0 < hv ∧ wv ≠ 0
        · simp only [if_pos hc, Option.isSome_some]
          exact ⟨fun _ => ⟨hv, wv, rfl, rfl, hc.1, hc.2⟩, fun _ => trivial⟩
        · simp only [if_neg hc, Option.isSome_none]
          constructor
          · intro hfalse; cases hfalse
          · rintro ⟨hv2, wv2, heq1, heq2, hpos, hne⟩
            cases heq1; cases heq2
            exact absurd ⟨hpos, hne⟩ hc
  · intro hv wv hh hw hpos hne
    cases hh; cases hw
    rw [add_exam_bmi_some, if_pos ⟨hpos, hne⟩]
  · intro db pid t dt notes ad ex db2 eid hok
    unfold add_exam at hok
    by_cases hany : db.patients.any (fun p => p.patient_id == pid) = true
    · rw [if_pos hany] at hok
      cases hok
      rfl
    · rw [if_neg hany] at hok
      cases hok

/-- C1, witness for the amended claim at height 170 cm, weight 65 kg. -/
theorem bmi_presence_witness :
    add_exam_bmi (some 170) (some 65) = some (65 / ((170 / 100) ^ 2)) :=
  (bmi_presence (some 170) (some 65)).2.1 170 65 rfl rfl (by norm_num) (by norm_num)

/-- C7: when the source file does not exist, the copy raises, the handler
runs, and no attachment row is inserted — the store and the file list come
back unchanged inside the error. -/
theorem add_attachment_missing_source (db : DB) (files : List String)
    (isExam : Bool) (event_id : Nat) (src : String)
    (h : files.contains src = false) :
    add_attachment db files isExam event_id src =
      .error ("Could not attach file", db, files) := by
  have h2 : files.elem src = false := h
  have hm : src ∉ files := by
    intro hmem
    have h3 := List.elem_iff.mpr hmem
    rw [h2] at h3
    exact absurd h3 (by decide)
  simp [add_attachment, hm]

/-- C7, witness: attaching a file that is not on disk to an exam of the
populated store fails and changes nothing. -/
theorem add_attachment_missing_source_witness :
    add_attachment cascadeDB ["attachments/exams/P-001/2024-01-10/report.pdf"]
        true 10 "missing.pdf" =
      .error ("Could not attach file", cascadeDB,
        ["attachments/exams/P-001/2024-01-10/report.pdf"]) :=
  add_attachment_missing_source cascadeDB _ true 10 "missing.pdf" (by decide)

/-- C8: every exception of the backup body is intercepted by the catch-all
handler: the caller gets back an ordinary world with the message appended
to the log, and one pass of the scheduler loop is exactly one guarded
backup, so the loop continues past failures. -/
theorem backup_error_caught (w : BackupWorld) (p : String) (y m d : Nat) :
    (∀ e w2, backup_attempt w p y m d = .error (e, w2) →
      backup_database w p y m d = { w2 with log := w2.log ++ ["Backup Error: " ++ e] }) ∧
    (∀ n w0, backup_loop_run p y m d (n + 1) w0 =
      backup_loop_run p y m d n (backup_database w0 p y m d)) := by
  constructor
  · intro e w2 hatt
    simp [backup_database, hatt]
  · intro n w0
    rfl

def copyFailWorld : BackupWorld :=
  { mkdirFails := false
    connectFails := false
    copyFails := true
    backupFiles := []
    dbContent := 0
    log := [] }

/-- C8, witness: a failing copy step is logged and the world survives. -/
theorem backup_error_caught_witness :
    backup_database copyFailWorld "health_records.db" 2025 10 12 =
      { copyFailWorld with log := ["Backup Error: backup failed"] } :=
  (backup_error_caught copyFailWorld "health_records.db" 2025 10 12).1
    "backup failed" copyFailWorld rfl

/-- C3: inserting a patient whose `patient_code` is already taken hits the
`UNIQUE` constraint: the store raises `IntegrityError` — a failure kind
distinct from every other store error, which the caller catches separately
— and the error path adds no row (the returned error carries no new
state). -/
theorem add_patient_duplicate_code (db : DB) (code : String)
    (fn ln bd : String) (di ge : Option String) (he : Option ℚ)
    (ad addr post city country phone mobile email : Option String)
    (h : ∃ p ∈ db.patients, p.patient_code = some code) :
    add_patient db fn ln bd di ge he ad (some code) addr post city country
        phone mobile email = .error .integrityError ∧
    (∀ msg, DBError.integrityError ≠ DBError.operationalError msg) := by
  constructor
  · obtain ⟨p, hp, hcode⟩ := h
    have hany : db.patients.any (fun p => decide (p.patient_code = some code)) = true :=
      List.any_eq_true.2 ⟨p, hp, by simp [hcode]⟩
    simp [add_patient, hany]
  · intro msg hcontra
    cases hcontra

/-- C3, witness: re-using code `P-001` of the populated store fails with
the uniqueness violation. -/
theorem add_patient_duplicate_code_witness :
    add_patient cascadeDB "Eve" "Miller" "1975-07-07" none none none none
        (some "P-001") none none none none none none none =
      .error .integrityError :=
  (add_patient_duplicate_code cascadeDB "P-001" "Eve" "Miller" "1975-07-07"
      none none none none none none none none none none none
      ⟨patientP1, by simp [cascadeDB, emptyDB], rfl⟩).1

/-- C2: after `delete_patient`, no patient row with the deleted key, no
exam or intervention of that patient, and no attachment of such an exam or
intervention survives — the cascade leaves no orphaned child rows. -/
theorem delete_patient_cascade (db : DB) (pid : Nat) :
    (∀ p ∈ (delete_patient db pid).patients, p.patient_id ≠ pid) ∧
    (∀ e ∈ (delete_patient db pid).exams, e.patient_id ≠ pid) ∧
    (∀ i ∈ (delete_patient db pid).interventions, i.patient_id ≠ pid) ∧
    (∀ a ∈ (delete_patient db pid).exam_attachments,
      ¬ ∃ e ∈ db.exams, e.exam_id = a.exam_id ∧ e.patient_id = pid) ∧
    (∀ a ∈ (delete_patient db pid).intervention_attachments,
      ¬ ∃ i ∈ db.interventions,
          i.intervention_id = a.intervention_id ∧ i.patient_id = pid) := by
  refine ⟨?_, ?_, ?_, ?_, ?_⟩
  · intro p hp
    have h2 := (List.mem_filter.1 hp).2
    simpa [bne_iff_ne] using h2
  · intro e he
    have h2 := (List.mem_filter.1 he).2
    simpa [bne_iff_ne] using h2
  · intro i hi
    have h2 := (List.mem_filter.1 hi).2
    simpa [bne_iff_ne] using h2
  · rintro a ha ⟨e, he, h1, h2⟩
    have hmem := (List.mem_filter.1 ha).2
    simp at hmem
    exact hmem e he h2 h1
  · rintro a ha ⟨i, hi, h1, h2⟩
    have hmem := (List.mem_filter.1 ha).2
    simp at hmem
    exact hmem i hi h2 h1

/-- C2, witness: deleting patient 1 of the populated store leaves only
patient 2, and the surviving row is not the deleted one. -/
theorem delete_patient_cascade_witness :
    patientP2.patient_id ≠ 1 :=
  (delete_patient_cascade cascadeDB 1).1 patientP2 (by decide)

/-- Helper: nothing that survives a `!= name` filter satisfies `== name`. -/
theorem filter_beq_of_filter_bne (l : List (String × Nat)) (n : String) :
    (l.filter (fun f => f.1 != n)).filter (fun f => f.1 == n) = [] := by
  rw [List.filter_eq_nil_iff]
  intro a ha hbeq
  have h2 := (List.mem_filter.1 ha).2
  rw [bne_iff_ne] at h2
  exact h2 (beq_iff_eq.1 hbeq)

/-- C6: running the (successful) backup twice on the same calendar day
writes both snapshots to the one name
`{base}_backup_{YYYYMMDD}.db`, so the second overwrites the first and the
backup directory holds exactly one file of that name, with the second
snapshot's content. -/
theorem backup_same_day_overwrites (w : BackupWorld) (p : String)
    (y m d c2 : Nat) (h1 : w.mkdirFails = false) (h2 : w.connectFails = false)
    (h3 : w.copyFails = false) :
    ((backup_database { backup_database w p y m d with dbContent := c2 }
        p y m d).backupFiles.filter
          (fun f => f.1 == backup_name p y m d)) =
      [(backup_name p y m d, c2)] ∧
    backup_name p y m d =
      splitextStem (basename p) ++ "_backup_" ++ strftime_Ymd y m d ++ ".db" := by
  refine ⟨?_, rfl⟩
  simp only [backup_database, backup_attempt, h1, h2, h3, Bool.false_eq_true,
    if_false, fsWrite]
  rw [List.filter_cons_of_pos (by simp)]
  rw [filter_beq_of_filter_bne]

def goodWorld : BackupWorld :=
  { mkdirFails := false
    connectFails := false
    copyFails := false
    backupFiles := []
    dbContent := 1
    log := [] }

/-- C6, witness: two same-day snapshots on 2025-10-12 leave one file
`health_records_backup_20251012.db` holding the later content. -/
theorem backup_same_day_overwrites_witness :
    ((backup_database { backup_database goodWorld "health_records.db" 2025 10 12
        with dbContent := 2 } "health_records.db" 2025 10 12).backupFiles.filter
          (fun f => f.1 == backup_name "health_records.db" 2025 10 12)) =
      [(backup_name "health_records.db" 2025 10 12, 2)] :=
  (backup_same_day_overwrites goodWorld "health_records.db" 2025 10 12 2
    rfl rfl rfl).1

/-- C9: a field selector outside the whitelist does not fail — the layer
falls back to the default `last_name` search, for every store state, filter
text and stored birth range. -/
theorem search_invalid_field_fallback (db : DB) (ft f : String)
    (h : ¬ f ∈ validFields) :
    search_patients db ft f = search_patients db ft "last_name" := by
  simp only [search_patients]
  congr 1
  apply List.filter_congr
  intro p hp
  by_cases hft : ft = ""
  · simp [hft]
  · simp [hft, h]

/-- C9, witness: the unknown selector `bogus` searches by last name. -/
theorem search_invalid_field_fallback_witness :
    search_patients cascadeDB "Doe" "bogus" =
      search_patients cascadeDB "Doe" "last_name" :=
  search_invalid_field_fallback cascadeDB "Doe" "bogus" (by decide)

/-- C4: the age-at-event computation returns the empty string when either
date is missing or unparseable, and otherwise, with d the signed number of
days between the dates, the string "{y}y, {m}m" with
y = ⌊d / 365.25⌋ and m = ⌊(d mod 365.25) / 30.44⌋, where `mod` is the
divisor-signed (Python) remainder d - 365.25·⌊d / 365.25⌋. -/
theorem age_at_event_contract (birth event : Option Date) :
    ((birth = none ∨ event = none ∨
        (∃ b, birth = some b ∧ b.valid = false) ∨
        (∃ e, event = some e ∧ e.valid = false)) →
      calculate_age_at_event birth event = "") ∧
    (∀ b e, birth = some b → event = some e → b.valid = true → e.valid = true →
      calculate_age_at_event birth event =
        toString ⌊((rataDie e - rataDie b : ℤ) : ℚ) / (1461 / 4)⌋ ++ "y, " ++
        toString
          ⌊(((rataDie e - rataDie b : ℤ) : ℚ) -
              (1461 / 4) * ⌊((rataDie e - rataDie b : ℤ) : ℚ) / (1461 / 4)⌋) /
            (761 / 25)⌋ ++ "m") := by
  have hq1 : (365.25 : ℚ) = 1461 / 4 := by norm_num
  have hq2 : (30.44 : ℚ) = 761 / 25 := by norm_num
  constructor
  · rintro (hb | he | ⟨b, hb, hbv⟩ | ⟨e, he, hev⟩)
    · cases hb; rfl
    · cases he
      cases birth <;> rfl
    · cases hb
      cases event with
      | none => rfl
      | some e =>
          simp [calculate_age_at_event, hbv]
    · cases he
      cases birth with
      | none => rfl
      | some b =>
          simp [calculate_age_at_event, hev]
  · intro b e hb he hbv hev
    cases hb; cases he
    simp only [calculate_age_at_event, hbv, hev, Bool.and_self, if_true, hq1, hq2]

/-- C4, witness: born 1990-05-01, event 2024-01-10 (12307 days apart) gives
the display string "33y, 8m". -/
theorem age_at_event_contract_witness :
    calculate_age_at_event (some ⟨1990, 5, 1⟩) (some ⟨2024, 1, 10⟩) = "33y, 8m" := by
  have h := (age_at_event_contract (some ⟨1990, 5, 1⟩) (some ⟨2024, 1, 10⟩)).2
    ⟨1990, 5, 1⟩ ⟨2024, 1, 10⟩ rfl rfl (by decide) (by decide)
  rw [h]
  have hd : rataDie ⟨2024, 1, 10⟩ - rataDie ⟨1990, 5, 1⟩ = 12307 := by decide
  rw [hd]
  have h1 : ⌊((12307 : ℤ) : ℚ) / (1461 / 4)⌋ = 33 := by
    rw [Int.floor_eq_iff]; norm_num
  have h2 : ⌊(((12307 : ℤ) : ℚ) - (1461 / 4) * ((33 : ℤ) : ℚ)) / (761 / 25)⌋ = 8 := by
    rw [Int.floor_eq_iff]; norm_num
  rw [h1]
  push_cast at h2 ⊢
  rw [h2]
  decide

/-! ## The search contract (C5) -/

/-- The claim's matching predicate: a patient matches when the selected
column contains the filter text (ASCII-case-insensitively) — an empty
filter matches everything — and its birth date lies in the closed stored
range, a missing bound imposing no constraint. -/
def claim_matches (br : Option (Option String × Option String))
    (ft f : String) (p : Patient) : Bool :=
  (if ft = "" then true
   else
     match fieldValue p f with
     | some s => containsCI ft.data s.data
     | none => false) &&
  (match br with
   | none => true
   | some (rs, rstop) =>
       (match rs with
        | some s => strLe s p.birth_date
        | none => true) &&
       (match rstop with
        | some e => strLe p.birth_date e
        | none => true))

theorem charLe_total (a b : Char) : charLe a b = true ∨ charLe b a = true := by
  unfold charLe
  rcases Nat.le_total a.toNat b.toNat with h | h
  · left; rw [Nat.ble_eq]; exact h
  · right; rw [Nat.ble_eq]; exact h

theorem charLe_trans {a b c : Char} (h1 : charLe a b = true)
    (h2 : charLe b c = true) : charLe a c = true := by
  unfold charLe at h1 h2 ⊢
  rw [Nat.ble_eq] at h1 h2 ⊢
  exact le_trans h1 h2

theorem charLe_antisymm {a b : Char} (h1 : charLe a b = true)
    (h2 : charLe b a = true) : a = b := by
  unfold charLe at h1 h2
  rw [Nat.ble_eq] at h1 h2
  apply Char.ext
  apply UInt32.ext
  exact le_antisymm h1 h2

theorem lexLe_total : ∀ x y : List Char, lexLe x y = true ∨ lexLe y x = true
  | [], _ => Or.inl rfl
  | _ :: _, [] => Or.inr rfl
  | a :: as, b :: bs => by
      by_cases hab : a = b
      · cases hab
        simp only [lexLe, if_pos rfl]
        exact lexLe_total as bs
      · simp only [lexLe, if_neg hab, if_neg (Ne.symm hab)]
        exact charLe_total a b

theorem lexLe_trans : ∀ {x y z : List Char},
    lexLe x y = true → lexLe y z = true → lexLe x z = true
  | [], _, _, _, _ => rfl
  | a :: as, [], _, h1, _ => by cases h1
  | a :: as, b :: bs, [], _, h2 => by cases h2
  | a :: as, b :: bs, c :: cs, h1, h2 => by
      by_cases hab : a = b
      · cases hab
        rw [lexLe, if_pos rfl] at h1
        by_cases hbc : a = c
        · cases hbc
          rw [lexLe, if_pos rfl] at h2 ⊢
          exact lexLe_trans h1 h2
        · rw [lexLe, if_neg hbc] at h2 ⊢
          exact h2
      · rw [lexLe, if_neg hab] at h1
        by_cases hbc : b = c
        · cases hbc
          rw [lexLe, if_neg hab]
          exact h1
        · rw [lexLe, if_neg hbc] at h2
          have hac : ¬ a = c := by
            intro he
            cases he
            exact hab (charLe_antisymm h1 h2)
          rw [lexLe, if_neg hac]
          exact charLe_trans h1 h2

theorem strLe_total (a b : String) : strLe a b = true ∨ strLe b a = true :=
  lexLe_total a.data b.data

theorem strLe_trans {a b c : String} (h1 : strLe a b = true)
    (h2 : strLe b c = true) : strLe a c = true :=
  lexLe_trans h1 h2

/-- The order `ORDER BY last_name` sorts by. -/
def lastNameLe (a b : Patient) : Prop := strLe a.last_name b.last_name = true

theorem insertByLastName_perm (p : Patient) (l : List Patient) :
    (insertByLastName p l).Perm (p :: l) := by
  induction l with
  | nil => exact List.Perm.refl _
  | cons q qs ih =>
      by_cases h : strLe p.last_name q.last_name = true
      · rw [insertByLastName, if_pos h]
      · rw [insertByLastName, if_neg h]
        exact (ih.cons q).trans (List.Perm.swap p q qs)

theorem sortByLastName_perm (l : List Patient) : (sortByLastName l).Perm l := by
  induction l with
  | nil => exact List.Perm.refl _
  | cons p ps ih =>
      exact (insertByLastName_perm p (sortByLastName ps)).trans (ih.cons p)

theorem insertByLastName_pairwise (p : Patient) (l : List Patient)
    (h : l.Pairwise lastNameLe) :
    (insertByLastName p l).Pairwise lastNameLe := by
  induction l with
  | nil => simp [insertByLastName]
  | cons q qs ih =>
      rcases List.pairwise_cons.1 h with ⟨hq, hqs⟩
      by_cases hpq : strLe p.last_name q.last_name = true
      · rw [insertByLastName, if_pos hpq]
        refine List.pairwise_cons.2 ⟨?_, h⟩
        intro x hx
        rcases List.mem_cons.1 hx with hx | hx
        · cases hx; exact hpq
        · exact strLe_trans hpq (hq x hx)
      · rw [insertByLastName, if_neg hpq]
        refine List.pairwise_cons.2 ⟨?_, ih hqs⟩
        intro x hx
        rcases List.mem_cons.1 ((insertByLastName_perm p qs).mem_iff.1 hx) with hx | hx
        · cases hx
          rcases strLe_total p.last_name q.last_name with ht | ht
          · exact absurd ht hpq
          · exact ht
        · exact hq x hx

theorem sortByLastName_pairwise (l : List Patient) :
    (sortByLastName l).Pairwise lastNameLe := by
  induction l with
  | nil => exact List.Pairwise.nil
  | cons p ps ih => exact insertByLastName_pairwise p (sortByLastName ps) ih

theorem startsWithCI_nil_right (q : List Char) :
    startsWithCI q [] = q.isEmpty := by
  cases q with
  | nil => rfl
  | cons a as => rfl

theorem likeChars_cons (q : Char) (ps t : List Char) :
    likeChars (q :: ps) t =
      (if q = '%' then t.tails.any (fun s => likeChars ps s)
       else
         match t with
         | [] => false
         | c :: ts =>
             (if q = '_' then true else lowerChar q == lowerChar c) &&
               likeChars ps ts) := rfl

theorem likeChars_percent (ps t : List Char) :
    likeChars ('%' :: ps) t = t.tails.any (fun s => likeChars ps s) := by
  rw [likeChars_cons, if_pos rfl]

/-- A trailing `%` after a wildcard-free pattern matches exactly the texts
the pattern starts (case-insensitively). -/
theorem likeChars_wildcard_free (q : List Char)
    (hq : ∀ c ∈ q, ¬ c = '%' ∧ ¬ c = '_') :
    ∀ t, likeChars (q ++ ['%']) t = startsWithCI q t := by
  induction q with
  | nil =>
      intro t
      rw [List.nil_append, startsWithCI]
      rw [likeChars_percent]
      induction t with
      | nil => rfl
      | cons c ts iht =>
          rw [List.tails_cons, List.any_cons, iht, Bool.or_true]
  | cons a as ih =>
      intro t
      have ha := hq a (List.mem_cons_self a as)
      have has : ∀ c ∈ as, ¬ c = '%' ∧ ¬ c = '_' :=
        fun c hc => hq c (List.mem_cons_of_mem a hc)
      cases t with
      | nil =>
          rw [List.cons_append, likeChars_cons, if_neg ha.1]
          rfl
      | cons c ts =>
          rw [List.cons_append, likeChars_cons, if_neg ha.1]
          simp only [startsWithCI, if_neg ha.2]
          rw [ih has ts]

/-- `%q%` with wildcard-free `q` matches exactly the texts containing `q`
case-insensitively. -/
theorem likeChars_contains (q : List Char)
    (hq : ∀ c ∈ q, ¬ c = '%' ∧ ¬ c = '_') :
    ∀ t, likeChars ('%' :: (q ++ ['%'])) t = containsCI q t := by
  intro t
  induction t with
  | nil =>
      rw [likeChars_percent, List.tails, List.any_cons, List.any_nil,
        Bool.or_false, likeChars_wildcard_free q hq, startsWithCI_nil_right]
      rfl
  | cons c ts ih =>
      rw [likeChars_percent, List.tails_cons, List.any_cons,
        likeChars_wildcard_free q hq, ← likeChars_percent, ih, containsCI]

/-- `LIKE '%text%'` on strings, for wildcard-free text, is case-insensitive
substring containment. -/
theorem sqlLike_eq_containsCI (ft s : String)
    (hft : ∀ c ∈ ft.data, ¬ c = '%' ∧ ¬ c = '_') :
    sqlLike ("%" ++ ft ++ "%") s = containsCI ft.data s.data := by
  have hdata : ("%" ++ ft ++ "%").data = '%' :: (ft.data ++ ['%']) := by
    rw [String.data_append, String.data_append]
    rfl
  rw [sqlLike, hdata, likeChars_contains ft.data hft s.data]

/-- C5, counterexample: SQLite's `LIKE` is ASCII-case-insensitive, so
searching last names for `DOE` returns the patient named `Doe`, although
`Doe` does not contain `DOE` as a substring — the claim's case-sensitive
reading of "contains the filter text as a substring" does not hold. -/
theorem search_substring_cex :
    search_patients cascadeDB "DOE" "last_name" = [patientP1] ∧
    containsCS "DOE".data patientP1.last_name.data = false := by
  constructor
  · decide
  · decide

/-- C5, amended: for a filter text free of the wildcard characters `%` and
`_`, a whitelisted field selector, and a stored birth range whose present
bounds are non-empty strings, `search_patients` returns exactly the
patients whose selected field contains the filter text
**ASCII-case-insensitively** (an empty filter matches all, a NULL field
none) and whose birth date lies in the closed range (missing bounds
unconstrained), ordered by last name ascending. -/
theorem search_patients_amended (db : DB) (ft f : String)
    (hf : f ∈ validFields)
    (hft : ∀ c ∈ ft.data, ¬ c = '%' ∧ ¬ c = '_')
    (hbr : ∀ rs rstop, db.birth_range = some (rs, rstop) →
      rs ≠ some "" ∧ rstop ≠ some "") :
    (search_patients db ft f).Perm
      (db.patients.filter (claim_matches db.birth_range ft f)) ∧
    (search_patients db ft f).Pairwise lastNameLe := by
  have hcf : validFields.contains f = true := List.elem_iff.2 hf
  constructor
  · simp only [search_patients]
    refine (sortByLastName_perm _).trans (List.Perm.of_eq (List.filter_congr ?_))
    intro p _
    unfold claim_matches
    congr 1
    · by_cases hft0 : ft = ""
      · rw [if_pos hft0, if_pos hft0]
      · rw [if_neg hft0, if_neg hft0]
        simp only [hcf, if_true]
        cases fieldValue p f with
        | none => rfl
        | some s => exact sqlLike_eq_containsCI ft s hft
    · cases hr : db.birth_range with
      | none => rfl
      | some bounds =>
          rcases bounds with ⟨rs, rstop⟩
          rcases hbr rs rstop hr with ⟨h1, h2⟩
          cases rs with
          | none =>
              cases rstop with
              | none => rfl
              | some e =>
                  have he : ¬ e = "" := fun h0 => h2 (by rw [h0])
                  simp only [if_neg he]
          | some s =>
              have hs : ¬ s = "" := fun h0 => h1 (by rw [h0])
              cases rstop with
              | none => simp only [if_neg hs]
              | some e =>
                  have he : ¬ e = "" := fun h0 => h2 (by rw [h0])
                  simp only [if_neg hs, if_neg he]
  · simp only [search_patients]
    exact sortByLastName_pairwise _

/-- C5, witness: searching the populated store's diagnoses for `ACL`
returns exactly patient 1 (whose diagnosis is `ACL tear`), sorted. -/
theorem search_patients_amended_witness :
    (search_patients cascadeDB "ACL" "diagnosis").Perm
      (cascadeDB.patients.filter (claim_matches cascadeDB.birth_range "ACL" "diagnosis")) ∧
    (search_patients cascadeDB "ACL" "diagnosis").Pairwise lastNameLe :=
  search_patients_amended cascadeDB "ACL" "diagnosis" (by decide) (by decide)
    (fun _ _ h => Option.noConfusion h)

end GaitDoc
